import Mathlib

/-!
Verification of the server-side device-identity subsystem of Velociraptor
(`crypto/server/manager.go`): enrollment (`AddCertificateRequest`), the
public-key resolver with its negative-result cache (`serverPublicKeyResolver`
backed by a ttlcache), and the client-deletion invalidation callback.

The Go code is shallowly embedded: state (the datastore and the negative
cache) is threaded explicitly through each operation, time is an explicit
`Nat` (seconds), and fallible external collaborators (datastore handle,
record reads/writes) are driven by explicit fault flags so that every
error path of the source is reachable in the model.
-/

set_option autoImplicit false

namespace VelociraptorCrypto

/-! ## Association-list primitives

The datastore (path ↦ record) and the ttlcache contents (key ↦ expiry) are
modelled as association lists with these access functions. -/

/-- First value bound to `key`, if any. -/
def lookupEntry {α : Type} : List (String × α) → String → Option α
  | [], _ => none
  | (k, v) :: rest, key => if k = key then some v else lookupEntry rest key

/-- Bind `key` to `v`, replacing an existing binding in place. -/
def insertEntry {α : Type} : List (String × α) → String → α → List (String × α)
  | [], key, v => [(key, v)]
  | (k, w) :: rest, key, v =>
    if k = key then (key, v) :: rest else (k, w) :: insertEntry rest key v

/-- Drop every binding of `key`. -/
def removeEntry {α : Type} : List (String × α) → String → List (String × α)
  | [], _ => []
  | (k, v) :: rest, key =>
    if k = key then removeEntry rest key else (k, v) :: removeEntry rest key

theorem lookupEntry_insertEntry_self {α : Type} (l : List (String × α)) (key : String) (v : α) :
    lookupEntry (insertEntry l key v) key = some v := by
  induction l with
  | nil => simp [insertEntry, lookupEntry]
  | cons hd tl ih =>
    obtain ⟨k, w⟩ := hd
    by_cases h : k = key
    · simp [insertEntry, h, lookupEntry]
    · simp [insertEntry, h, lookupEntry, ih]

theorem lookupEntry_insertEntry_other {α : Type} (l : List (String × α)) (key k' : String)
    (v : α) (h : k' ≠ key) :
    lookupEntry (insertEntry l key v) k' = lookupEntry l k' := by
  induction l with
  | nil => simp [insertEntry, lookupEntry, Ne.symm h]
  | cons hd tl ih =>
    obtain ⟨k, w⟩ := hd
    by_cases hk : k = key
    · subst hk
      simp [insertEntry, lookupEntry, Ne.symm h]
    · simp only [insertEntry, if_neg hk]
      by_cases hk' : k = k'
      · simp [lookupEntry, hk']
      · simp [lookupEntry, hk', ih]

theorem lookupEntry_removeEntry_self {α : Type} (l : List (String × α)) (key : String) :
    lookupEntry (removeEntry l key) key = none := by
  induction l with
  | nil => simp [removeEntry, lookupEntry]
  | cons hd tl ih =>
    obtain ⟨k, w⟩ := hd
    by_cases h : k = key
    · simp [removeEntry, h, ih]
    · simp [removeEntry, h, lookupEntry, ih]

theorem lookupEntry_removeEntry_other {α : Type} (l : List (String × α)) (key k' : String)
    (h : k' ≠ key) :
    lookupEntry (removeEntry l key) k' = lookupEntry l k' := by
  induction l with
  | nil => simp [removeEntry]
  | cons hd tl ih =>
    obtain ⟨k, w⟩ := hd
    by_cases hk : k = key
    · subst hk
      simp [removeEntry, lookupEntry, Ne.symm h, ih]
    · simp only [removeEntry, if_neg hk]
      by_cases hk' : k = k'
      · simp [lookupEntry, hk']
      · simp [lookupEntry, hk', ih]

theorem removeEntry_removeEntry_self {α : Type} (l : List (String × α)) (key : String) :
    removeEntry (removeEntry l key) key = removeEntry l key := by
  induction l with
  | nil => simp [removeEntry]
  | cons hd tl ih =>
    obtain ⟨k, w⟩ := hd
    by_cases h : k = key
    · simp [removeEntry, h, ih]
    · simp [removeEntry, h, ih]

theorem removeEntry_of_lookupEntry_none {α : Type} (l : List (String × α)) (key : String)
    (h : lookupEntry l key = none) : removeEntry l key = l := by
  induction l with
  | nil => simp [removeEntry]
  | cons hd tl ih =>
    obtain ⟨k, w⟩ := hd
    by_cases hk : k = key
    · simp [lookupEntry, hk] at h
    · simp only [lookupEntry, if_neg hk] at h
      simp [removeEntry, hk, ih h]

/-! ## Data model -/

/-- Models Go `rsa.PublicKey` (modulus `N`, exponent `E`). -/
structure RsaPublicKey where
  n : Nat
  e : Nat
deriving DecidableEq, Repr

/-- A PEM blob as stored in the datastore.  Modelled from the spec: the PEM
encode/decode helpers (`crypto_utils.PublicKeyToPem` / `PemToPublicKey`) are
not part of the excerpt; the spec treats them as a library capability whose
encode/decode round-trips, while a stored blob may independently be
undecodable. -/
inductive Pem where
  | valid (k : RsaPublicKey)
  | corrupt
deriving DecidableEq, Repr

/-- Modelled from the spec: `crypto_utils.PublicKeyToPem`, the PEM encoding of
an RSA public key. -/
def PublicKeyToPem (k : RsaPublicKey) : Pem := Pem.valid k

/-- Modelled from the spec: `crypto_utils.PemToPublicKey`; decoding fails on a
corrupt blob and recovers the key from a well-formed one. -/
def PemToPublicKey : Pem → Option RsaPublicKey
  | Pem.valid k => some k
  | Pem.corrupt => none

/-- Modelled from the spec: `crypto_utils.ClientIDFromPublicKey`
("DeriveIdentifier") is not in the excerpt; the spec describes it as a
deterministic one-way derivation of the client identifier from the public
key.  It is modelled as a concrete deterministic function of the key's
components. -/
def ClientIDFromPublicKey (k : RsaPublicKey) : String :=
  "C." ++ toString k.n ++ "-" ++ toString k.e

/-- The `Defaults` section of the server configuration
(`config_obj.Defaults.UnauthenticatedLruTimeoutSec`). -/
structure Defaults where
  unauthenticatedLruTimeoutSec : Int
deriving DecidableEq, Repr

/-- The slice of `config_proto.Config` the resolver and enrollment use: the
optional `Defaults` message and an organisation qualifier. -/
structure Config where
  orgId : String
  defaults : Option Defaults
deriving DecidableEq, Repr

/-- Modelled from the spec: `utils.ClientIdFromConfigObj` is not in the
excerpt; the spec says the identifier carries "in multi-tenant deployments, a
namespace/organization qualifier".  The root organisation is the empty
string. -/
def ClientIdFromConfigObj (client_id : String) (config_obj : Config) : String :=
  if config_obj.orgId = "" then client_id else client_id ++ "-" ++ config_obj.orgId

/-- Modelled from the spec: `paths.NewClientPathManager(client_id).Key()`, a
datastore path derived deterministically (and injectively) from the
identifier. -/
def clientKeyPath (client_id : String) : String :=
  "/clients/" ++ client_id ++ "/key"

/-- Models `crypto_proto.PublicKey`, the persisted record
`{Pem, EnrollTime}` written by `SetPublicKey`. -/
structure PublicKeyRecord where
  pem : Pem
  enrollTime : Nat
deriving DecidableEq, Repr

/-! ## The TTL cache

`serverPublicKeyResolver.negative_lru` is a `ttlcache.Cache` (v2).  The cache
is modelled from that library's contract: a default item TTL (`SetTTL`),
where a TTL of zero — the value a fresh `ttlcache.NewCache()` starts with —
means items never expire; `Get` misses on absent or expired items and, unless
`SkipTTLExtensionOnHit(true)` was set, refreshes a hit item's expiry;
`Set` stamps the item with the default TTL at insertion time; `Remove`
deletes the item.  An item set at time `t` with TTL `T > 0` is live at `t'`
iff `t' ≤ t + T`. -/

/-- The negative-result cache: default TTL in seconds (`0` = items never
expire), the `SkipTTLExtensionOnHit` flag, and the live entries
(key ↦ expiry time, `none` = no expiry). -/
structure TTLCache where
  ttl : Nat
  skipExtension : Bool
  entries : List (String × Option Nat)
deriving DecidableEq, Repr

/-- `ttlcache.NewCache()`: empty, TTL 0, extension-on-hit enabled. -/
def TTLCache.new : TTLCache :=
  { ttl := 0, skipExtension := false, entries := [] }

/-- `Cache.SetTTL`. -/
def TTLCache.setTTL (c : TTLCache) (ttl : Nat) : TTLCache :=
  { c with ttl := ttl }

/-- `Cache.SkipTTLExtensionOnHit`. -/
def TTLCache.skipTTLExtensionOnHit (c : TTLCache) (b : Bool) : TTLCache :=
  { c with skipExtension := b }

/-- Expiry stamped onto an item inserted at `now`: `now + ttl` when a
positive TTL is configured, otherwise no expiry. -/
def nextExpiry (ttl now : Nat) : Option Nat :=
  if 0 < ttl then some (now + ttl) else none

/-- Is an item with this expiry live at time `now`? -/
def expiryLive (expiry : Option Nat) (now : Nat) : Bool :=
  match expiry with
  | none => true
  | some e => now ≤ e

/-- `Cache.Get` at time `now`: `(hit?, cache after the call)`.  A hit with
extension enabled and a positive TTL refreshes the item's expiry. -/
def TTLCache.get (c : TTLCache) (now : Nat) (key : String) : Bool × TTLCache :=
  match lookupEntry c.entries key with
  | none => (false, c)
  | some expiry =>
    if expiryLive expiry now then
      if c.skipExtension || decide (c.ttl = 0) then (true, c)
      else (true, { c with entries := insertEntry c.entries key (some (now + c.ttl)) })
    else (false, c)

/-- `Cache.Set` at time `now` (the cached value itself — `true` in the source
— carries no information, so only the expiry is kept). -/
def TTLCache.set (c : TTLCache) (now : Nat) (key : String) : TTLCache :=
  { c with entries := insertEntry c.entries key (nextExpiry c.ttl now) }

/-- `Cache.Remove`. -/
def TTLCache.remove (c : TTLCache) (key : String) : TTLCache :=
  { c with entries := removeEntry c.entries key }

/-- Whether a `Get` at time `now` would hit. -/
def cacheHit (c : TTLCache) (now : Nat) (key : String) : Bool :=
  (c.get now key).1

/-! ## World state and fault model -/

/-- Fault flags for one `GetPublicKey` call: `datastore.GetDB` failing, and
`db.GetSubject` failing for an infrastructure reason even when the record
exists (an absent record already makes `GetSubject` return an error). -/
structure Faults where
  getDBFails : Bool
  readFails : Bool
deriving DecidableEq, Repr

/-- A healthy store for one read. -/
def noFaults : Faults := { getDBFails := false, readFails := false }

/-- Fault flags for one `SetPublicKey` call: `datastore.GetDB` failing, and
`db.SetSubjectWithCompletion` failing. -/
structure SetFaults where
  getDBFails : Bool
  writeFails : Bool
deriving DecidableEq, Repr

/-- A healthy store for one write. -/
def noSetFaults : SetFaults := { getDBFails := false, writeFails := false }

/-- Errors a `SetPublicKey` call can propagate. -/
inductive StoreWriteError where
  | getDBError
  | setSubjectError
deriving DecidableEq, Repr

/-- The observable state an operation of `manager.go` can read or write: the
persistent datastore (path ↦ record), the negative-result cache, the current
time, and a counter of `db.GetSubject` calls (the "store-read counter" the
spec's testable properties refer to). -/
structure World where
  store : List (String × PublicKeyRecord)
  cache : TTLCache
  now : Nat
  storeReads : Nat
deriving DecidableEq, Repr

/-! ## The resolver (`serverPublicKeyResolver`) -/

/-- `serverPublicKeyResolver.DeleteSubject`: drop the negative-cache entry.
The source ignores `Remove`'s not-found error and returns nothing, so the
operation cannot fail. -/
def DeleteSubject (w : World) (client_id : String) : World :=
  { w with cache := w.cache.remove client_id }

/-- `serverPublicKeyResolver.GetPublicKey`: returns `(key?, found)` and the
world after the call.  Mirrors the source: negative-cache check first; then
`GetDB` (which on failure returns `(nil, false)` with no caching); then
`GetSubject` (counted as one store read; on error inserts a negative entry);
then PEM decode (on error inserts a negative entry). -/
def GetPublicKey (w : World) (f : Faults) (client_id : String) :
    Option RsaPublicKey × Bool × World :=
  let hit := w.cache.get w.now client_id
  let w1 := { w with cache := hit.2 }
  if hit.1 then
    (none, false, w1)
  else if f.getDBFails then
    (none, false, w1)
  else
    let w2 := { w1 with storeReads := w1.storeReads + 1 }
    let read : Option PublicKeyRecord :=
      if f.readFails then none else lookupEntry w2.store (clientKeyPath client_id)
    match read with
    | none =>
      (none, false, { w2 with cache := w2.cache.set w2.now client_id })
    | some record =>
      match PemToPublicKey record.pem with
      | none => (none, false, { w2 with cache := w2.cache.set w2.now client_id })
      | some key => (some key, true, w2)

/-- `serverPublicKeyResolver.SetPublicKey`: removes the negative-cache entry,
then obtains the datastore handle and writes `{Pem, EnrollTime = now}` under
the client's key path; either store step can fail, and its error is
returned. -/
def SetPublicKey (w : World) (f : SetFaults) (client_id : String) (key : RsaPublicKey) :
    Option StoreWriteError × World :=
  let w1 := { w with cache := w.cache.remove client_id }
  if f.getDBFails then
    (some StoreWriteError.getDBError, w1)
  else if f.writeFails then
    (some StoreWriteError.setSubjectError, w1)
  else
    let record : PublicKeyRecord := { pem := PublicKeyToPem key, enrollTime := w1.now }
    (none, { w1 with store := insertEntry w1.store (clientKeyPath client_id) record })

/-- `NewServerPublicKeyResolver`, restricted to the cache configuration it
performs (the context/waitgroup shutdown plumbing is concurrency and out of
the model): start from `ttlcache.NewCache()` and a 10-second default; with a
negative configured `UnauthenticatedLruTimeoutSec` return the cache as
constructed (no `SetTTL`, no `SkipTTLExtensionOnHit`); with a positive value
use it as the timeout; then apply `SetTTL` and `SkipTTLExtensionOnHit(true)`. -/
def NewServerPublicKeyResolver (config_obj : Config) : TTLCache :=
  let result := TTLCache.new
  let timeout : Nat := 10
  match config_obj.defaults with
  | some d =>
    if d.unauthenticatedLruTimeoutSec < 0 then
      result
    else
      let timeout :=
        if 0 < d.unauthenticatedLruTimeoutSec then d.unauthenticatedLruTimeoutSec.toNat
        else timeout
      (result.setTTL timeout).skipTTLExtensionOnHit true
  | none => (result.setTTL timeout).skipTTLExtensionOnHit true

/-! ## Enrollment (`ServerCryptoManager.AddCertificateRequest`) -/

/-- `x509.PublicKeyAlgorithm` values a CSR can carry. -/
inductive PublicKeyAlgorithm where
  | RSA
  | DSA
  | ECDSA
  | Ed25519
deriving DecidableEq, Repr

/-- The fields of a parsed `x509.CertificateRequest` the enrollment path
reads: the key algorithm, `Subject.CommonName`, and the embedded public
key. -/
structure CSR where
  publicKeyAlgorithm : PublicKeyAlgorithm
  commonName : String
  publicKey : RsaPublicKey
deriving DecidableEq, Repr

/-- Errors `AddCertificateRequest` can return, one per `return` site:
the parse error propagated from `ParseX509CSRFromPemStr` (the spec's
`MalformedRequest`), `"Not RSA algorithm"` (the spec's
`UnsupportedAlgorithm`), `"Invalid CSR"` (the spec's `IdentityMismatch`),
and a store error propagated from `SetPublicKey`. -/
inductive EnrollError where
  | MalformedRequest
  | UnsupportedAlgorithm
  | IdentityMismatch
  | StoreError (e : StoreWriteError)
deriving DecidableEq, Repr

/-- `crypto_utils.ParseX509CSRFromPemStr`, modelled by its contract (X.509
parsing is an external library capability): the raw bytes are represented by
their parse result, `none` standing for any blob that fails to parse. -/
def ParseX509CSRFromPemStr : Option CSR → Except EnrollError CSR
  | some csr => Except.ok csr
  | none => Except.error EnrollError.MalformedRequest

/-- `ServerCryptoManager.AddCertificateRequest`: parse the CSR, require an
RSA key, require the claimed common name to equal the identifier derived
from the presented key, then `SetPublicKey` under the org-qualified
identifier; on success return the org-qualified client id (recomputed from
`csr.Subject.CommonName` as in the source). -/
def AddCertificateRequest (w : World) (f : SetFaults) (config_obj : Config)
    (csr_pem : Option CSR) : Except EnrollError String × World :=
  match ParseX509CSRFromPemStr csr_pem with
  | Except.error e => (Except.error e, w)
  | Except.ok csr =>
    if csr.publicKeyAlgorithm ≠ PublicKeyAlgorithm.RSA then
      (Except.error EnrollError.UnsupportedAlgorithm, w)
    else
      let common_name := csr.commonName
      let public_key := csr.publicKey
      if common_name ≠ ClientIDFromPublicKey public_key then
        (Except.error EnrollError.IdentityMismatch, w)
      else
        match SetPublicKey w f (ClientIdFromConfigObj common_name config_obj) public_key with
        | (some e, w1) => (Except.error (EnrollError.StoreError e), w1)
        | (none, w1) =>
          let client_id := ClientIdFromConfigObj csr.commonName config_obj
          (Except.ok client_id, w1)

/-! ## The invalidation listener -/

/-- A value in an `ordereddict.Dict` row, as far as `GetString` cares:
either a string or something else. -/
inductive RowValue where
  | str (s : String)
  | other
deriving DecidableEq, Repr

/-- A deletion notification row. -/
def Row : Type := List (String × RowValue)

/-- `ordereddict.Dict.GetString`: the value under `key` when present and a
string (`pres = true` in the source), `none` otherwise. -/
def getString (row : Row) (key : String) : Option String :=
  match lookupEntry row key with
  | some (RowValue.str s) => some s
  | _ => none

/-- The callback `NewServerCryptoManager` registers on
`Server.Internal.ClientDelete`: extract `"ClientId"`; when present call
`DeleteSubject` with it, otherwise leave the world alone; in both cases
return `nil` (`none`) as the callback error. -/
def clientDeleteCallback (w : World) (row : Row) : World × Option Unit :=
  match getString row "ClientId" with
  | some client_id => (DeleteSubject w client_id, none)
  | none => (w, none)

/-! ## Helper lemmas -/

/-- A `Get` that misses leaves the cache unchanged and reports a miss. -/
theorem TTLCache.get_of_miss (c : TTLCache) (t : Nat) (key : String)
    (h : cacheHit c t key = false) : c.get t key = (false, c) := by
  unfold cacheHit at h
  unfold TTLCache.get at h ⊢
  cases hl : lookupEntry c.entries key with
  | none => simp [hl]
  | some expiry =>
    simp only [hl] at h ⊢
    cases hlive : expiryLive expiry t with
    | false => simp [hlive]
    | true =>
      simp only [hlive, if_true] at h
      cases hskip : (c.skipExtension || decide (c.ttl = 0)) <;> simp [hskip] at h

/-- A `Get` that hits reports a hit (with whatever extension it performs). -/
theorem cacheHit_set_self (c : TTLCache) (now t : Nat) (key : String) :
    cacheHit (c.set now key) t key = expiryLive (nextExpiry c.ttl now) t := by
  unfold cacheHit TTLCache.get TTLCache.set
  simp only [lookupEntry_insertEntry_self]
  cases hlive : expiryLive (nextExpiry c.ttl now) t with
  | false => simp [hlive]
  | true =>
    simp only [hlive, if_true]
    cases hskip : (c.skipExtension || decide (c.ttl = 0)) <;> simp [hskip]

/-- On a cache hit, `GetPublicKey` short-circuits: no key, not found, and the
world is untouched except for whatever the cache `Get` itself did. -/
theorem getPublicKey_of_hit (w : World) (f : Faults) (client_id : String)
    (h : cacheHit w.cache w.now client_id = true) :
    GetPublicKey w f client_id =
      (none, false, { w with cache := (w.cache.get w.now client_id).2 }) := by
  unfold cacheHit at h
  unfold GetPublicKey
  simp [h]

/-- On a cache miss with a reachable datastore handle, `GetPublicKey`
performs exactly one `GetSubject` read. -/
theorem getPublicKey_storeReads_of_miss (w : World) (f : Faults) (client_id : String)
    (hmiss : cacheHit w.cache w.now client_id = false)
    (hdb : f.getDBFails = false) :
    (GetPublicKey w f client_id).2.2.storeReads = w.storeReads + 1 := by
  unfold GetPublicKey
  rw [TTLCache.get_of_miss w.cache w.now client_id hmiss]
  simp only [hdb]
  cases hr : (if f.readFails then none
      else lookupEntry w.store (clientKeyPath client_id)) with
  | none => simp [hr]
  | some record =>
    cases hp : PemToPublicKey record.pem <;> simp [hr, hp]

/-- `SetPublicKey` against a healthy store succeeds and yields the world
with the negative-cache entry removed and the record written. -/
theorem setPublicKey_ok (w : World) (client_id : String) (k : RsaPublicKey) :
    SetPublicKey w noSetFaults client_id k =
      (none,
        { w with
            cache := w.cache.remove client_id,
            store := insertEntry w.store (clientKeyPath client_id)
              { pem := PublicKeyToPem k, enrollTime := w.now } }) := by
  unfold SetPublicKey noSetFaults
  rfl

/-- Resolving right after a successful bind of the same identifier finds the
bound key: the bind removed the negative-cache entry, and the written record
decodes back to the key. -/
theorem getPublicKey_after_set (w : World) (client_id : String) (k : RsaPublicKey) (t : Nat) :
    GetPublicKey { (SetPublicKey w noSetFaults client_id k).2 with now := t }
        noFaults client_id =
      (some k, true,
        { (SetPublicKey w noSetFaults client_id k).2 with
            now := t,
            storeReads := w.storeReads + 1 }) := by
  rw [setPublicKey_ok]
  unfold GetPublicKey
  have hmiss : cacheHit
      ({ w with
          cache := w.cache.remove client_id,
          store := insertEntry w.store (clientKeyPath client_id)
            { pem := PublicKeyToPem k, enrollTime := w.now } } : World).cache t client_id
        = false := by
    unfold cacheHit TTLCache.get TTLCache.remove
    simp [lookupEntry_removeEntry_self]
  rw [TTLCache.get_of_miss _ _ _ hmiss]
  simp [noFaults, lookupEntry_insertEntry_self, PemToPublicKey, PublicKeyToPem]

/-! ## Claim theorems -/

/-- C4: on a negative-cache miss with a reachable datastore handle, when the
`GetSubject` read fails (infrastructure failure or absent record) or the
stored PEM fails to decode, `GetPublicKey` inserts a negative-cache entry for
the identifier stamped with the configured TTL, increments the store-read
counter once, and returns `(nil, false)`.  The return type has no error
channel, so a store failure is never surfaced as a hard error: it is
indistinguishable from "not enrolled". -/
theorem C4_store_failure_negatively_cached (w : World) (f : Faults) (client_id : String)
    (hmiss : cacheHit w.cache w.now client_id = false)
    (hdb : f.getDBFails = false)
    (hfail : f.readFails = true ∨
      lookupEntry w.store (clientKeyPath client_id) = none ∨
      ∃ record, lookupEntry w.store (clientKeyPath client_id) = some record ∧
        PemToPublicKey record.pem = none) :
    GetPublicKey w f client_id =
      (none, false,
        { w with
            storeReads := w.storeReads + 1,
            cache := w.cache.set w.now client_id }) ∧
    lookupEntry (TTLCache.set w.cache w.now client_id).entries client_id =
      some (nextExpiry w.cache.ttl w.now) := by
  constructor
  · unfold GetPublicKey
    rw [TTLCache.get_of_miss w.cache w.now client_id hmiss]
    simp only [hdb]
    rcases hfail with hrf | habsent | ⟨record, hrec, hdec⟩
    · simp [hrf]
    · cases hrf : f.readFails <;> simp [hrf, habsent]
    · cases hrf : f.readFails
      · simp [hrf, hrec, hdec]
      · simp [hrf]
  · unfold TTLCache.set
    simp [lookupEntry_insertEntry_self]

/-- C5: a live negative-cache entry makes `GetPublicKey` return
`(nil, false)` immediately — no store read, store untouched (first
conjunct); in particular a second resolve of the same unknown identifier
within the TTL window of the first miss returns `(nil, false)` without a
second store read (second conjunct). -/
theorem C5_hit_short_circuits :
    (∀ (w : World) (f : Faults) (client_id : String),
      cacheHit w.cache w.now client_id = true →
      (GetPublicKey w f client_id).1 = none ∧
      (GetPublicKey w f client_id).2.1 = false ∧
      (GetPublicKey w f client_id).2.2.storeReads = w.storeReads ∧
      (GetPublicKey w f client_id).2.2.store = w.store) ∧
    (∀ (w : World) (client_id : String) (t : Nat),
      cacheHit w.cache w.now client_id = false →
      lookupEntry w.store (clientKeyPath client_id) = none →
      0 < w.cache.ttl →
      t ≤ w.now + w.cache.ttl →
      (GetPublicKey w noFaults client_id).2.1 = false ∧
      (GetPublicKey w noFaults client_id).2.2.storeReads = w.storeReads + 1 ∧
      (GetPublicKey { (GetPublicKey w noFaults client_id).2.2 with now := t }
          noFaults client_id).2.1 = false ∧
      (GetPublicKey { (GetPublicKey w noFaults client_id).2.2 with now := t }
          noFaults client_id).2.2.storeReads = w.storeReads + 1) := by
  constructor
  · intro w f client_id h
    rw [getPublicKey_of_hit w f client_id h]
    simp
  · intro w client_id t hmiss habsent httl ht
    have hfirst : GetPublicKey w noFaults client_id =
        (none, false,
          { w with
              storeReads := w.storeReads + 1,
              cache := w.cache.set w.now client_id }) := by
      unfold GetPublicKey
      rw [TTLCache.get_of_miss w.cache w.now client_id hmiss]
      simp [noFaults, habsent]
    rw [hfirst]
    have hhit : cacheHit (w.cache.set w.now client_id) t client_id = true := by
      rw [cacheHit_set_self]
      unfold nextExpiry
      simp only [if_pos httl]
      unfold expiryLive
      simpa using ht
    rw [getPublicKey_of_hit _ noFaults client_id hhit]
    simp

/-- C6: a successful bind of `(id, k)` is followed by a resolve returning
`(k, true)` — the written PEM decodes back to the same key — and re-binding
the same identifier with `k'` makes a subsequent resolve return `(k', true)`:
last bind wins.  The binds run against a healthy store (`noSetFaults`); the
resolves may happen at any later time `t`, `t'`. -/
theorem C6_bind_resolve_last_bind_wins (w : World) (client_id : String)
    (k k' : RsaPublicKey) (t t' : Nat) :
    (SetPublicKey w noSetFaults client_id k).1 = none ∧
    PemToPublicKey (PublicKeyToPem k) = some k ∧
    (GetPublicKey { (SetPublicKey w noSetFaults client_id k).2 with now := t }
        noFaults client_id).1 = some k ∧
    (GetPublicKey { (SetPublicKey w noSetFaults client_id k).2 with now := t }
        noFaults client_id).2.1 = true ∧
    (GetPublicKey
        { (SetPublicKey
            (GetPublicKey { (SetPublicKey w noSetFaults client_id k).2 with now := t }
              noFaults client_id).2.2
            noSetFaults client_id k').2 with now := t' }
        noFaults client_id).1 = some k' ∧
    (GetPublicKey
        { (SetPublicKey
            (GetPublicKey { (SetPublicKey w noSetFaults client_id k).2 with now := t }
              noFaults client_id).2.2
            noSetFaults client_id k').2 with now := t' }
        noFaults client_id).2.1 = true := by
  refine ⟨by rw [setPublicKey_ok], rfl, ?_, ?_, ?_, ?_⟩
  · rw [getPublicKey_after_set]
  · rw [getPublicKey_after_set]
  · rw [getPublicKey_after_set, getPublicKey_after_set]
  · rw [getPublicKey_after_set, getPublicKey_after_set]

/-- C7: `DeleteSubject` removes only the negative-cache entry of the given
identifier: the store, clock, read counter and cache configuration are
unchanged, other identifiers' entries are preserved, it is idempotent, it is
a no-op when no entry exists (and returns nothing, so it can never fail),
and a resolve right after the eviction reaches the store again (one fresh
`GetSubject` read) even inside the original TTL window. -/
theorem C7_evict_cache_only (w : World) (client_id : String) :
    (DeleteSubject w client_id).store = w.store ∧
    (DeleteSubject w client_id).now = w.now ∧
    (DeleteSubject w client_id).storeReads = w.storeReads ∧
    (DeleteSubject w client_id).cache.ttl = w.cache.ttl ∧
    (DeleteSubject w client_id).cache.skipExtension = w.cache.skipExtension ∧
    lookupEntry (DeleteSubject w client_id).cache.entries client_id = none ∧
    (∀ other, other ≠ client_id →
      lookupEntry (DeleteSubject w client_id).cache.entries other =
        lookupEntry w.cache.entries other) ∧
    DeleteSubject (DeleteSubject w client_id) client_id = DeleteSubject w client_id ∧
    (lookupEntry w.cache.entries client_id = none → DeleteSubject w client_id = w) ∧
    (GetPublicKey (DeleteSubject w client_id) noFaults client_id).2.2.storeReads =
      w.storeReads + 1 := by
  have hmiss : cacheHit (DeleteSubject w client_id).cache
      (DeleteSubject w client_id).now client_id = false := by
    unfold cacheHit TTLCache.get DeleteSubject TTLCache.remove
    simp [lookupEntry_removeEntry_self]
  refine ⟨rfl, rfl, rfl, rfl, rfl, ?_, ?_, ?_, ?_, ?_⟩
  · unfold DeleteSubject TTLCache.remove
    simp [lookupEntry_removeEntry_self]
  · intro other hother
    unfold DeleteSubject TTLCache.remove
    simp [lookupEntry_removeEntry_other _ _ _ hother]
  · unfold DeleteSubject TTLCache.remove
    simp [removeEntry_removeEntry_self]
  · intro habsent
    unfold DeleteSubject TTLCache.remove
    simp [removeEntry_of_lookupEntry_none _ _ habsent]
  · exact getPublicKey_storeReads_of_miss _ _ _ hmiss rfl

/-- C8: the `Server.Internal.ClientDelete` callback always returns `nil`
(no notification, well-formed or malformed, can error out and terminate the
subscription); when the row carries a string `"ClientId"` it evicts exactly
that identifier via `DeleteSubject`, and when the field is missing (or not a
string) it leaves the world untouched. -/
theorem C8_delete_notification_callback (w : World) (row : Row) :
    (clientDeleteCallback w row).2 = none ∧
    (∀ client_id, getString row "ClientId" = some client_id →
      (clientDeleteCallback w row).1 = DeleteSubject w client_id) ∧
    (getString row "ClientId" = none → (clientDeleteCallback w row).1 = w) := by
  unfold clientDeleteCallback
  cases h : getString row "ClientId" <;> simp

/-- C9: when the negative cache misses and obtaining the datastore handle
itself fails (`GetDB` error, before any record read), `GetPublicKey` returns
`(nil, false)` with the world completely unchanged — in particular no
negative-cache entry is inserted and no store read is counted — so a
subsequent resolve with a healthy handle reaches the store again. -/
theorem C9_getdb_failure_not_cached (w : World) (f : Faults) (client_id : String)
    (hmiss : cacheHit w.cache w.now client_id = false)
    (hdb : f.getDBFails = true) :
    GetPublicKey w f client_id = (none, false, w) ∧
    (GetPublicKey w noFaults client_id).2.2.storeReads = w.storeReads + 1 := by
  constructor
  · unfold GetPublicKey
    rw [TTLCache.get_of_miss w.cache w.now client_id hmiss]
    simp [hdb]
  · exact getPublicKey_storeReads_of_miss w noFaults client_id hmiss rfl

/-- C1: against a store that accepts the write, enrollment succeeds and
returns an identifier iff the CSR parses, its key algorithm is RSA, and its
claimed common name equals the identifier derived from the presented public
key; an unparseable CSR fails with the parse error (`MalformedRequest`), a
non-RSA key fails with `"Not RSA algorithm"` (`UnsupportedAlgorithm`)
regardless of common name, and a common name that does not derive from the
key fails with `"Invalid CSR"` (`IdentityMismatch`).  A failed enrollment
carries no identifier by the shape of the return type. -/
theorem C1_enroll_validation (config_obj : Config) (w : World) (csr_pem : Option CSR) :
    ((∃ client_id, (AddCertificateRequest w noSetFaults config_obj csr_pem).1 =
        Except.ok client_id) ↔
      (∃ csr, csr_pem = some csr ∧ csr.publicKeyAlgorithm = PublicKeyAlgorithm.RSA ∧
        csr.commonName = ClientIDFromPublicKey csr.publicKey)) ∧
    (csr_pem = none →
      (AddCertificateRequest w noSetFaults config_obj csr_pem).1 =
        Except.error EnrollError.MalformedRequest) ∧
    (∀ csr, csr_pem = some csr → csr.publicKeyAlgorithm ≠ PublicKeyAlgorithm.RSA →
      (AddCertificateRequest w noSetFaults config_obj csr_pem).1 =
        Except.error EnrollError.UnsupportedAlgorithm) ∧
    (∀ csr, csr_pem = some csr → csr.publicKeyAlgorithm = PublicKeyAlgorithm.RSA →
      csr.commonName ≠ ClientIDFromPublicKey csr.publicKey →
      (AddCertificateRequest w noSetFaults config_obj csr_pem).1 =
        Except.error EnrollError.IdentityMismatch) := by
  cases csr_pem with
  | none =>
    refine ⟨?_, fun _ => rfl, ?_, ?_⟩
    · simp [AddCertificateRequest, ParseX509CSRFromPemStr]
    · intro csr h
      exact absurd h (by simp)
    · intro csr h
      exact absurd h (by simp)
  | some csr =>
    by_cases halg : csr.publicKeyAlgorithm = PublicKeyAlgorithm.RSA
    · by_cases hcn : csr.commonName = ClientIDFromPublicKey csr.publicKey
      · have hres : (AddCertificateRequest w noSetFaults config_obj (some csr)).1 =
            Except.ok (ClientIdFromConfigObj csr.commonName config_obj) := by
          unfold AddCertificateRequest ParseX509CSRFromPemStr
          simp [halg, hcn, setPublicKey_ok]
        refine ⟨?_, by simp, ?_, ?_⟩
        · constructor
          · intro _
            exact ⟨csr, rfl, halg, hcn⟩
          · intro _
            exact ⟨ClientIdFromConfigObj csr.commonName config_obj, hres⟩
        · intro csr2 h2 halg2
          obtain rfl := Option.some_inj.mp h2
          exact absurd halg halg2
        · intro csr2 h2 _ hcn2
          obtain rfl := Option.some_inj.mp h2
          exact absurd hcn hcn2
      · have hres : (AddCertificateRequest w noSetFaults config_obj (some csr)).1 =
            Except.error EnrollError.IdentityMismatch := by
          unfold AddCertificateRequest ParseX509CSRFromPemStr
          simp [halg, hcn]
        refine ⟨?_, by simp, ?_, ?_⟩
        · constructor
          · intro ⟨client_id, hid⟩
            rw [hres] at hid
            exact absurd hid (by simp)
          · intro ⟨csr2, h2, _, hcn2⟩
            obtain rfl := Option.some_inj.mp h2
            exact absurd hcn2 hcn
        · intro csr2 h2 halg2
          obtain rfl := Option.some_inj.mp h2
          exact absurd halg halg2
        · intro csr2 h2 _ _
          obtain rfl := Option.some_inj.mp h2
          exact hres
    · have hres : (AddCertificateRequest w noSetFaults config_obj (some csr)).1 =
          Except.error EnrollError.UnsupportedAlgorithm := by
        unfold AddCertificateRequest ParseX509CSRFromPemStr
        simp [halg]
      refine ⟨?_, by simp, ?_, ?_⟩
      · constructor
        · intro ⟨client_id, hid⟩
          rw [hres] at hid
          exact absurd hid (by simp)
        · intro ⟨csr2, h2, halg2, _⟩
          obtain rfl := Option.some_inj.mp h2
          exact absurd halg2 halg
      · intro csr2 h2 _
        obtain rfl := Option.some_inj.mp h2
        exact hres
      · intro csr2 h2 halg2 _
        obtain rfl := Option.some_inj.mp h2
        exact absurd halg2 halg

/-- Key used by the C1 witness. -/
def c1Key : RsaPublicKey := { n := 7, e := 11 }

/-- Well-formed CSR used by the C1 witness. -/
def c1Csr : CSR :=
  { publicKeyAlgorithm := PublicKeyAlgorithm.RSA,
    commonName := ClientIDFromPublicKey c1Key,
    publicKey := c1Key }

/-- Configuration used by the C1 witness. -/
def c1Config : Config := { orgId := "OrgX", defaults := none }

/-- Starting world used by the C1 witness. -/
def c1World : World :=
  { store := [], cache := TTLCache.new, now := 3, storeReads := 0 }

/-- Witness for C1 at concrete inputs: a matching RSA CSR enrolls, the three
failure cases yield their respective errors. -/
theorem C1_enroll_validation_witness :
    (∃ client_id, (AddCertificateRequest c1World noSetFaults c1Config (some c1Csr)).1 =
      Except.ok client_id) ∧
    (AddCertificateRequest c1World noSetFaults c1Config none).1 =
      Except.error EnrollError.MalformedRequest ∧
    (AddCertificateRequest c1World noSetFaults c1Config
        (some { c1Csr with publicKeyAlgorithm := PublicKeyAlgorithm.ECDSA })).1 =
      Except.error EnrollError.UnsupportedAlgorithm ∧
    (AddCertificateRequest c1World noSetFaults c1Config
        (some { c1Csr with commonName := "C.imposter" })).1 =
      Except.error EnrollError.IdentityMismatch := by
  refine ⟨?_, ?_, ?_, ?_⟩
  · exact (C1_enroll_validation c1Config c1World (some c1Csr)).1.mpr ⟨c1Csr, rfl, rfl, rfl⟩
  · exact (C1_enroll_validation c1Config c1World none).2.1 rfl
  · exact (C1_enroll_validation c1Config c1World _).2.2.1 _ rfl (by decide)
  · exact (C1_enroll_validation c1Config c1World _).2.2.2 _ rfl rfl (by decide)

/-- C10: whenever `AddCertificateRequest` succeeds, the identifier it
returns is exactly the org-qualified identifier derived from the CSR's
common name — the same string `SetPublicKey` used as the storage key — so
the resulting world holds the just-bound public key under that
identifier's key path, stamped with the enrollment time. -/
theorem C10_returned_identifier_names_record (w : World) (f : SetFaults)
    (config_obj : Config) (csr : CSR) (client_id : String) (w1 : World)
    (h : AddCertificateRequest w f config_obj (some csr) = (Except.ok client_id, w1)) :
    client_id = ClientIdFromConfigObj csr.commonName config_obj ∧
    lookupEntry w1.store (clientKeyPath client_id) =
      some { pem := PublicKeyToPem csr.publicKey, enrollTime := w.now } := by
  unfold AddCertificateRequest ParseX509CSRFromPemStr SetPublicKey at h
  by_cases halg : csr.publicKeyAlgorithm = PublicKeyAlgorithm.RSA
  · by_cases hcn : csr.commonName = ClientIDFromPublicKey csr.publicKey
    · cases hdb : f.getDBFails with
      | true => simp [halg, hcn, hdb] at h
      | false =>
        cases hwr : f.writeFails with
        | true => simp [halg, hcn, hdb, hwr] at h
        | false =>
          simp [halg, hcn, hdb, hwr] at h
          obtain ⟨hid, hw1⟩ := h
          subst hid
          subst hw1
          refine ⟨by rw [hcn], by simp [lookupEntry_insertEntry_self]⟩
    · simp [halg, hcn] at h
  · simp [halg] at h

/-- Key used by the C10 witness. -/
def c10Key : RsaPublicKey := { n := 2, e := 9 }

/-- Well-formed CSR used by the C10 witness. -/
def c10Csr : CSR :=
  { publicKeyAlgorithm := PublicKeyAlgorithm.RSA,
    commonName := ClientIDFromPublicKey c10Key,
    publicKey := c10Key }

/-- Multi-tenant configuration used by the C10 witness. -/
def c10Config : Config := { orgId := "O1", defaults := none }

/-- Starting world used by the C10 witness. -/
def c10World : World :=
  { store := [], cache := TTLCache.new, now := 4, storeReads := 0 }

/-- Witness for C10: the concrete enrollment returns the org-qualified
identifier `"C.2-9-O1"`, and the key is stored under that identifier's
path. -/
theorem C10_returned_identifier_names_record_witness :
    "C.2-9-O1" = ClientIdFromConfigObj c10Csr.commonName c10Config ∧
    lookupEntry (AddCertificateRequest c10World noSetFaults c10Config (some c10Csr)).2.store
      (clientKeyPath "C.2-9-O1") =
      some { pem := PublicKeyToPem c10Csr.publicKey, enrollTime := c10World.now } := by
  have h := C10_returned_identifier_names_record c10World noSetFaults c10Config c10Csr
    "C.2-9-O1" (AddCertificateRequest c10World noSetFaults c10Config (some c10Csr)).2 rfl
  exact ⟨h.1, h.2⟩

/-- Configuration with a negative `UnauthenticatedLruTimeoutSec`, used to
refute C2. -/
def c2Config : Config :=
  { orgId := "", defaults := some { unauthenticatedLruTimeoutSec := -1 } }

/-- Fresh world whose negative cache is the resolver built from `c2Config`. -/
def c2World0 : World :=
  { store := [], cache := NewServerPublicKeyResolver c2Config, now := 0, storeReads := 0 }

/-- The world after a first resolve of an unknown identifier under the
negative-TTL configuration. -/
def c2World1 : World := (GetPublicKey c2World0 noFaults "C.unknown").2.2

/-- Counterexample to C2: with `UnauthenticatedLruTimeoutSec = -1` the claim
says the negative cache is disabled and every resolve falls through to the
store, but after one failed resolve (one store read) a resolve of the same
identifier 1000000 seconds later is short-circuited by the cached negative
entry: it returns `found = false` and the store-read counter stays at 1. -/
theorem C2_negative_ttl_counterexample :
    c2Config.defaults = some { unauthenticatedLruTimeoutSec := -1 } ∧
    c2World1.storeReads = 1 ∧
    (GetPublicKey { c2World1 with now := 1000000 } noFaults "C.unknown").2.1 = false ∧
    (GetPublicKey { c2World1 with now := 1000000 } noFaults "C.unknown").2.2.storeReads
      = 1 := by
  refine ⟨rfl, rfl, ?_, ?_⟩ <;> decide

/-- C2 (amended): the TTL resolution of `NewServerPublicKeyResolver` is:
an absent `Defaults` message or a zero `UnauthenticatedLruTimeoutSec` yields
the 10-second default (with TTL-extension-on-hit disabled); a positive value
yields that many seconds; but a negative value does NOT disable the negative
cache — the resolver is returned before `SetTTL` runs, keeping the
`ttlcache.NewCache()` zero TTL, under which an inserted negative entry never
expires, and any resolve of an identifier with a live entry is
short-circuited away from the store. -/
theorem C2_ttl_resolution_amended :
    (∀ config_obj : Config,
      (config_obj.defaults = none →
        NewServerPublicKeyResolver config_obj =
          (TTLCache.new.setTTL 10).skipTTLExtensionOnHit true) ∧
      (∀ d, config_obj.defaults = some d →
        (d.unauthenticatedLruTimeoutSec = 0 →
          NewServerPublicKeyResolver config_obj =
            (TTLCache.new.setTTL 10).skipTTLExtensionOnHit true) ∧
        (0 < d.unauthenticatedLruTimeoutSec →
          NewServerPublicKeyResolver config_obj =
            (TTLCache.new.setTTL d.unauthenticatedLruTimeoutSec.toNat).skipTTLExtensionOnHit
              true) ∧
        (d.unauthenticatedLruTimeoutSec < 0 →
          NewServerPublicKeyResolver config_obj = TTLCache.new))) ∧
    (∀ (c : TTLCache) (now t : Nat) (key : String),
      c.ttl = 0 → cacheHit (c.set now key) t key = true) ∧
    (∀ (w : World) (f : Faults) (client_id : String),
      cacheHit w.cache w.now client_id = true →
      (GetPublicKey w f client_id).2.1 = false ∧
      (GetPublicKey w f client_id).2.2.storeReads = w.storeReads) := by
  refine ⟨?_, ?_, ?_⟩
  · intro config_obj
    constructor
    · intro hnone
      unfold NewServerPublicKeyResolver
      rw [hnone]
    · intro d hsome
      unfold NewServerPublicKeyResolver
      refine ⟨?_, ?_, ?_⟩
      · intro hzero
        simp [hsome, hzero]
      · intro hpos
        simp [hsome, hpos, show ¬d.unauthenticatedLruTimeoutSec < 0 by omega]
      · intro hneg
        simp [hsome, hneg]
  · intro c now t key hzero
    rw [cacheHit_set_self]
    unfold nextExpiry
    simp [hzero, expiryLive]
  · intro w f client_id h
    rw [getPublicKey_of_hit w f client_id h]
    simp

/-- Witness for the amended C2: the concrete negative configuration yields
the bare `ttlcache.NewCache()` cache, and an entry set into a zero-TTL cache
is still a hit arbitrarily far in the future. -/
theorem C2_ttl_resolution_amended_witness :
    NewServerPublicKeyResolver c2Config = TTLCache.new ∧
    cacheHit (TTLCache.set TTLCache.new 5 "C.x") 999999 "C.x" = true := by
  refine ⟨((C2_ttl_resolution_amended.1 c2Config).2
    { unauthenticatedLruTimeoutSec := -1 } rfl).2.2 (by decide),
    C2_ttl_resolution_amended.2.1 TTLCache.new 5 999999 "C.x" rfl⟩

/-- Key used by the C3 refutation. -/
def c3Key : RsaPublicKey := { n := 3, e := 5 }

/-- The identifier derived from `c3Key`. -/
def c3CommonName : String := ClientIDFromPublicKey c3Key

/-- Root-org configuration used by the C3 refutation. -/
def c3Config : Config := { orgId := "", defaults := none }

/-- Well-formed CSR for `c3Key`. -/
def c3Csr : CSR :=
  { publicKeyAlgorithm := PublicKeyAlgorithm.RSA,
    commonName := c3CommonName,
    publicKey := c3Key }

/-- World holding a live negative-cache entry for the enrolling identifier. -/
def c3World0 : World :=
  { store := [],
    cache := { ttl := 10, skipExtension := true, entries := [(c3CommonName, some 100)] },
    now := 0, storeReads := 0 }

/-- Store faults for the C3 refutation: the write fails. -/
def c3Faults : SetFaults := { getDBFails := false, writeFails := true }

/-- Counterexample to C3: a valid enrollment whose store write fails does
propagate the error, but it is NOT free of observable effect — the
negative-cache entry for the identifier, live before the call, is gone
after it. -/
theorem C3_bind_failure_counterexample :
    (AddCertificateRequest c3World0 c3Faults c3Config (some c3Csr)).1 =
      Except.error (EnrollError.StoreError StoreWriteError.setSubjectError) ∧
    lookupEntry c3World0.cache.entries c3CommonName = some (some 100) ∧
    lookupEntry (AddCertificateRequest c3World0 c3Faults c3Config (some c3Csr)).2.cache.entries
      c3CommonName = none := by
  refine ⟨rfl, by decide, by decide⟩

/-- C3 (amended): when the datastore handle or the store write fails during
`SetPublicKey`, the error is returned (and `AddCertificateRequest` wraps and
propagates it to the enrollment caller with no identifier), and the
persistent store, clock and read counter are unchanged — but the
negative-cache entry for the identifier has already been removed
unconditionally before the write was attempted, so the cache can differ from
its pre-call state. -/
theorem C3_bind_failure_amended (w : World) (f : SetFaults) (client_id : String)
    (k : RsaPublicKey) (hf : f.getDBFails = true ∨ f.writeFails = true) :
    (SetPublicKey w f client_id k).1 =
      some (if f.getDBFails then StoreWriteError.getDBError
            else StoreWriteError.setSubjectError) ∧
    (SetPublicKey w f client_id k).2.store = w.store ∧
    (SetPublicKey w f client_id k).2.now = w.now ∧
    (SetPublicKey w f client_id k).2.storeReads = w.storeReads ∧
    (SetPublicKey w f client_id k).2.cache = w.cache.remove client_id ∧
    (∀ (config_obj : Config) (csr : CSR),
      csr.publicKeyAlgorithm = PublicKeyAlgorithm.RSA →
      csr.commonName = ClientIDFromPublicKey csr.publicKey →
      (AddCertificateRequest w f config_obj (some csr)).1 =
        Except.error (EnrollError.StoreError
          (if f.getDBFails then StoreWriteError.getDBError
           else StoreWriteError.setSubjectError)) ∧
      (AddCertificateRequest w f config_obj (some csr)).2.store = w.store) := by
  have hset : ∀ (cid : String) (key : RsaPublicKey),
      SetPublicKey w f cid key =
        (some (if f.getDBFails then StoreWriteError.getDBError
               else StoreWriteError.setSubjectError),
         { w with cache := w.cache.remove cid }) := by
    intro cid key
    unfold SetPublicKey
    cases hdb : f.getDBFails with
    | true => simp [hdb]
    | false =>
      cases hwr : f.writeFails with
      | true => simp [hdb, hwr]
      | false =>
        rw [hdb, hwr] at hf
        rcases hf with hf | hf <;> exact absurd hf (by simp)
  refine ⟨?_, ?_, ?_, ?_, ?_, ?_⟩
  · rw [hset]
  · rw [hset]
  · rw [hset]
  · rw [hset]
  · rw [hset]
  · intro config_obj csr halg hcn
    unfold AddCertificateRequest ParseX509CSRFromPemStr
    simp [halg, hcn, hset]

/-- Witness for the amended C3 at the concrete refutation inputs. -/
theorem C3_bind_failure_amended_witness :
    (SetPublicKey c3World0 c3Faults c3CommonName c3Key).1 =
      some StoreWriteError.setSubjectError ∧
    (SetPublicKey c3World0 c3Faults c3CommonName c3Key).2.store = c3World0.store ∧
    (SetPublicKey c3World0 c3Faults c3CommonName c3Key).2.cache =
      c3World0.cache.remove c3CommonName ∧
    (AddCertificateRequest c3World0 c3Faults c3Config (some c3Csr)).1 =
      Except.error (EnrollError.StoreError StoreWriteError.setSubjectError) := by
  have h := C3_bind_failure_amended c3World0 c3Faults c3CommonName c3Key (Or.inr rfl)
  have hprop := h.2.2.2.2.2 c3Config c3Csr rfl rfl
  exact ⟨h.1, h.2.1, h.2.2.2.2.1, hprop.1⟩

/-- World used by the C4 witness: an empty negative cache and a stored
record whose PEM is corrupt. -/
def c4World : World :=
  { store := [(clientKeyPath "C.ghost", { pem := Pem.corrupt, enrollTime := 0 })],
    cache := { ttl := 10, skipExtension := true, entries := [] },
    now := 5, storeReads := 0 }

/-- Witness for C4: resolving the identifier whose stored PEM is corrupt
returns `(nil, false)`, counts one store read and inserts a negative entry
carrying the configured 10-second TTL. -/
theorem C4_store_failure_negatively_cached_witness :
    GetPublicKey c4World noFaults "C.ghost" =
      (none, false,
        { c4World with
            storeReads := c4World.storeReads + 1,
            cache := c4World.cache.set c4World.now "C.ghost" }) ∧
    lookupEntry (TTLCache.set c4World.cache c4World.now "C.ghost").entries "C.ghost" =
      some (nextExpiry c4World.cache.ttl c4World.now) :=
  C4_store_failure_negatively_cached c4World noFaults "C.ghost" (by decide) rfl
    (Or.inr (Or.inr ⟨{ pem := Pem.corrupt, enrollTime := 0 }, by decide, rfl⟩))

/-- World used by the C5 witness: empty store, empty cache, 10-second TTL. -/
def c5World : World :=
  { store := [],
    cache := { ttl := 10, skipExtension := true, entries := [] },
    now := 0, storeReads := 0 }

/-- Witness for C5: a first resolve of an unknown identifier misses and
reads the store once; a second resolve 9 seconds later (inside the
10-second TTL) returns `found = false` without a second store read. -/
theorem C5_hit_short_circuits_witness :
    (GetPublicKey c5World noFaults "C.unknown").2.1 = false ∧
    (GetPublicKey c5World noFaults "C.unknown").2.2.storeReads = c5World.storeReads + 1 ∧
    (GetPublicKey { (GetPublicKey c5World noFaults "C.unknown").2.2 with now := 9 }
        noFaults "C.unknown").2.1 = false ∧
    (GetPublicKey { (GetPublicKey c5World noFaults "C.unknown").2.2 with now := 9 }
        noFaults "C.unknown").2.2.storeReads = c5World.storeReads + 1 :=
  C5_hit_short_circuits.2 c5World "C.unknown" 9 (by decide) rfl (by decide) (by decide)

/-- World used by the C7 witness: two live negative-cache entries. -/
def c7World : World :=
  { store := [],
    cache := { ttl := 10, skipExtension := true,
               entries := [("C.gone", some 100), ("C.other", some 50)] },
    now := 0, storeReads := 0 }

/-- Witness for C7: evicting `"C.gone"` removes exactly its entry, keeps
`"C.other"`, evicting an absent identifier is a no-op, and a resolve right
after the eviction performs a fresh store read. -/
theorem C7_evict_cache_only_witness :
    lookupEntry (DeleteSubject c7World "C.gone").cache.entries "C.gone" = none ∧
    lookupEntry (DeleteSubject c7World "C.gone").cache.entries "C.other" = some (some 50) ∧
    DeleteSubject c7World "C.absent" = c7World ∧
    (GetPublicKey (DeleteSubject c7World "C.gone") noFaults "C.gone").2.2.storeReads =
      c7World.storeReads + 1 := by
  obtain ⟨-, -, -, -, -, hself, hother, -, -, hreads⟩ := C7_evict_cache_only c7World "C.gone"
  obtain ⟨-, -, -, -, -, -, -, -, hnoop, -⟩ := C7_evict_cache_only c7World "C.absent"
  refine ⟨hself, ?_, hnoop (by decide), hreads⟩
  rw [hother "C.other" (by decide)]
  decide

/-- World used by the C8 witness. -/
def c8World : World :=
  { store := [],
    cache := { ttl := 10, skipExtension := true, entries := [("C.gone", some 100)] },
    now := 0, storeReads := 0 }

/-- Witness for C8: a well-formed deletion notification evicts the named
identifier and returns no error; a notification without a `"ClientId"`
field leaves the world untouched. -/
theorem C8_delete_notification_callback_witness :
    (clientDeleteCallback c8World [("ClientId", RowValue.str "C.gone")]).2 = none ∧
    (clientDeleteCallback c8World [("ClientId", RowValue.str "C.gone")]).1 =
      DeleteSubject c8World "C.gone" ∧
    (clientDeleteCallback c8World [("Other", RowValue.str "x")]).1 = c8World := by
  refine ⟨(C8_delete_notification_callback c8World _).1,
    (C8_delete_notification_callback c8World _).2.1 "C.gone" (by decide),
    (C8_delete_notification_callback c8World _).2.2 (by decide)⟩

/-- World used by the C9 witness. -/
def c9World : World :=
  { store := [],
    cache := { ttl := 10, skipExtension := true, entries := [] },
    now := 0, storeReads := 0 }

/-- Faults used by the C9 witness: the datastore handle itself fails. -/
def c9Faults : Faults := { getDBFails := true, readFails := false }

/-- Witness for C9: a `GetDB` failure leaves the world untouched (no
negative-cache entry), and a retry with a healthy handle reads the store. -/
theorem C9_getdb_failure_not_cached_witness :
    GetPublicKey c9World c9Faults "C.x" = (none, false, c9World) ∧
    (GetPublicKey c9World noFaults "C.x").2.2.storeReads = c9World.storeReads + 1 :=
  C9_getdb_failure_not_cached c9World c9Faults "C.x" (by decide) rfl

end VelociraptorCrypto
